import Mathlib

/-!
Shallow embedding of the `errcheckif` static analyzer
(file `errcheckif.go` of the repository, the variant carrying the
forward-scanning if-else merge pass).  The Go AST fragment that the
analyzer inspects is modelled as a pair of mutual inductive types
`Expr`/`Stmt`; type information supplied by `go/types`
(`pass.TypesInfo`) is carried on the nodes themselves:
  * `identE.obj`      models `pass.TypesInfo.ObjectOf(ident)`
                      (`none` = unresolved, `some .universeNil` = the
                      predeclared `nil` object);
  * `identE.tyImplementsError`
                      models `TypeOf(ident) != nil && types.Implements(TypeOf(ident), errorInterface)`;
  * `callE.sigResultsImplementError`
                      models `TypeOf(call.Fun).(*types.Signature)`:
                      `none` when the type assertion fails, otherwise
                      one `Bool` per result position recording
                      `types.Implements(results.At(i).Type(), errorInterface)`.
Pointer equality between AST nodes (`stmt == path[i-1]`,
`block == ifStmt.Body`, ...) is modelled as equality of the `pos`
fields; all concrete programs built below give every node a distinct
position, matching the uniqueness of `token.Pos` ranges in Go.
-/

namespace Errcheckif

/-- Binary operator kinds distinguished by `checkCondition`
(`token.LOR`, `token.LAND`, `token.NEQ`, `token.EQL`); every other
Go operator behaves identically and is collapsed into `otherOp`. -/
inductive Op where
  | lor
  | land
  | neq
  | eql
  | otherOp
deriving DecidableEq, Repr

/-- The result of `pass.TypesInfo.ObjectOf`: either some declared
object (identified by an opaque token, here a `Nat`) or the
predeclared universe `nil` object. -/
inductive GoObj where
  | varObj (id : Nat)
  | universeNil
deriving DecidableEq, Repr

mutual
/-- Go expressions, restricted to the shapes the analyzer inspects.
`identE` = `*ast.Ident`, `binary` = `*ast.BinaryExpr`,
`callE` = `*ast.CallExpr`, `selectorE` = `*ast.SelectorExpr`,
`funcLit` = `*ast.FuncLit` (its `results` field models
`FuncType.Results`: `none` = nil, each inner list the `Names` of a
field), `otherE` covers every other expression kind. -/
inductive Expr where
  | identE (pos : Nat) (name : String) (obj : Option GoObj) (tyImplementsError : Bool)
  | binary (pos : Nat) (op : Op) (x : Expr) (y : Expr)
  | callE (pos : Nat) (fn : Expr) (args : List Expr) (sigResultsImplementError : Option (List Bool))
  | selectorE (pos : Nat) (x : Expr) (selName : String)
  | funcLit (pos : Nat) (results : Option (List (List Expr))) (body : Stmt)
  | otherE (pos : Nat)

/-- Go statements, restricted to the shapes the analyzer inspects.
`block` = `*ast.BlockStmt`, `ifS` = `*ast.IfStmt` (with optional
`Init` statement and optional `Else`), `ret` = `*ast.ReturnStmt`,
`assign` = `*ast.AssignStmt`, `caseClause`/`commClause` =
`*ast.CaseClause`/`*ast.CommClause`, `switchS`/`selectS` =
`*ast.SwitchStmt`/`*ast.SelectStmt` (whose `Body` is a block of
clauses), `exprStmt` = `*ast.ExprStmt`, `otherS` = anything else. -/
inductive Stmt where
  | block (pos : Nat) (list : List Stmt)
  | ifS (pos : Nat) (ini : Option Stmt) (cond : Expr) (body : Stmt) (els : Option Stmt)
  | ret (pos : Nat) (results : List Expr)
  | assign (pos : Nat) (lhs : List Expr) (rhs : List Expr)
  | caseClause (pos : Nat) (body : List Stmt)
  | commClause (pos : Nat) (body : List Stmt)
  | switchS (pos : Nat) (body : Stmt)
  | selectS (pos : Nat) (body : Stmt)
  | exprStmt (pos : Nat) (e : Expr)
  | otherS (pos : Nat)
end

/-- Source position (`ast.Node.Pos()`) of an expression. -/
def Expr.pos : Expr → Nat
  | .identE p _ _ _ => p
  | .binary p _ _ _ => p
  | .callE p _ _ _ => p
  | .selectorE p _ _ => p
  | .funcLit p _ _ => p
  | .otherE p => p

/-- Source position (`ast.Node.Pos()`) of a statement. -/
def Stmt.pos : Stmt → Nat
  | .block p _ => p
  | .ifS p _ _ _ _ => p
  | .ret p _ => p
  | .assign p _ _ => p
  | .caseClause p _ => p
  | .commClause p _ => p
  | .switchS p _ => p
  | .selectS p _ => p
  | .exprStmt p _ => p
  | .otherS p => p

/-- `*ast.FuncDecl`: position, `Type.Results` (`none` = nil result
list, each inner list the `Names` of one result field), and the body
block. -/
structure FuncDecl where
  pos : Nat
  results : Option (List (List Expr))
  body : Stmt

/-- A source file: its name (used for the `_test.go` suffix test) and
its top-level function declarations. -/
structure File where
  pos : Nat
  name : String
  decls : List FuncDecl

/-- `*analysis.Pass`: the files under analysis.  All type information
is already embedded in the nodes. -/
structure Pass where
  files : List File

/-- AST nodes as they appear on an `astutil.PathEnclosingInterval`
path. -/
inductive Node where
  | stmtN (s : Stmt)
  | exprN (e : Expr)
  | declN (d : FuncDecl)
  | fileN (f : File)

/-- Position of a path node. -/
def nodePos : Node → Nat
  | .stmtN s => s.pos
  | .exprN e => e.pos
  | .declN d => d.pos
  | .fileN f => f.pos

/-- `pass.TypesInfo.ObjectOf` applied to an expression (only ever
used on identifiers; the analyzer's target is always an
`*ast.Ident`). -/
def objOf : Expr → Option GoObj
  | .identE _ _ o _ => o
  | _ => none

/-- `isIdent(pass, expr, targetIdent)`: `expr` is an identifier and
`ObjectOf(expr) == ObjectOf(targetIdent)` (pointer equality of the
`types.Object`s; two `nil` objects compare equal, as in Go). -/
def isIdent (e target : Expr) : Bool :=
  match e with
  | .identE _ _ o _ => decide (o = objOf target)
  | _ => false

/-- `isNil(pass, expr)`: `expr` is an identifier whose object is the
predeclared universe `nil`. -/
def isNil (e : Expr) : Bool :=
  match e with
  | .identE _ _ o _ => decide (o = some GoObj.universeNil)
  | _ => false

/-- `checkCondition(pass, cond, errIdent)`: the recursive condition
evaluator.  `&&`/`||` recurse on both operands and accept either;
`==`/`!=` accept `err`-vs-`nil` in either order; a call accepts
`errors.Is(err, ...)` / `errors.As(err, ...)` with the tracked
identifier as first argument; everything else is rejected. -/
def checkCondition (cond errIdent : Expr) : Bool :=
  match cond with
  | .binary _ op x y =>
    if op = Op.lor ∨ op = Op.land then
      checkCondition x errIdent || checkCondition y errIdent
    else if op = Op.neq ∨ op = Op.eql then
      (isIdent x errIdent && isNil y) || (isNil x && isIdent y errIdent)
    else
      false
  | .callE _ fn args _ =>
    match fn with
    | .selectorE _ (.identE _ xname _ _) selName =>
      if xname = "errors" then
        if selName = "Is" ∨ selName = "As" then
          match args with
          | a :: _ => isIdent a errIdent
          | [] => false
        else false
      else false
    | _ => false
  | _ => false

mutual
/-- Core of `isIdentifierReassigned`: `ast.Inspect` over a statement,
looking for any nested `*ast.AssignStmt` one of whose left-hand
identifiers resolves to the target object `t`. -/
def reassignS (t : GoObj) : Stmt → Bool
  | .block _ l => reassignL t l
  | .ifS _ ini cond body els =>
    reassignO t ini || reassignE t cond || reassignS t body || reassignO t els
  | .ret _ results => reassignEL t results
  | .assign _ lhs rhs =>
    lhs.any (fun e =>
      match e with
      | .identE _ _ o _ => decide (o = some t)
      | _ => false) || reassignEL t lhs || reassignEL t rhs
  | .caseClause _ body => reassignL t body
  | .commClause _ body => reassignL t body
  | .switchS _ body => reassignS t body
  | .selectS _ body => reassignS t body
  | .exprStmt _ e => reassignE t e
  | .otherS _ => false

def reassignO (t : GoObj) : Option Stmt → Bool
  | none => false
  | some s => reassignS t s

def reassignL (t : GoObj) : List Stmt → Bool
  | [] => false
  | s :: r => reassignS t s || reassignL t r

def reassignE (t : GoObj) : Expr → Bool
  | .identE _ _ _ _ => false
  | .binary _ _ x y => reassignE t x || reassignE t y
  | .callE _ fn args _ => reassignE t fn || reassignEL t args
  | .selectorE _ x _ => reassignE t x
  | .funcLit _ _ body => reassignS t body
  | .otherE _ => false

def reassignEL (t : GoObj) : List Expr → Bool
  | [] => false
  | e :: r => reassignE t e || reassignEL t r
end

/-- `isIdentifierReassigned(pass, stmt, errIdent)`: resolve the
target's object (unresolved target → `false`, as in the source),
then inspect the whole nested structure of `stmt` for an assignment
to that object. -/
def isIdentifierReassigned (s : Stmt) (errIdent : Expr) : Bool :=
  match objOf errIdent with
  | none => false
  | some t => reassignS t s

mutual
/-- `astutil.PathEnclosingInterval` restricted to statement targets:
the path of enclosing nodes, innermost first, from the node at
position `p` inside statement `s` up to `s` itself.  Positions are
unique in every program built in this file, so position search
coincides with Go's interval search. -/
def pathS (s : Stmt) (p : Nat) : Option (List Node) :=
  if s.pos = p then some [.stmtN s] else
    (match s with
     | .block _ l => pathL l p
     | .ifS _ ini cond body els =>
       match pathO ini p with
       | some l => some l
       | none =>
         match pathE cond p with
         | some l => some l
         | none =>
           match pathS body p with
           | some l => some l
           | none => pathO els p
     | .ret _ results => pathEL results p
     | .assign _ lhs rhs =>
       match pathEL lhs p with
       | some l => some l
       | none => pathEL rhs p
     | .caseClause _ body => pathL body p
     | .commClause _ body => pathL body p
     | .switchS _ body => pathS body p
     | .selectS _ body => pathS body p
     | .exprStmt _ e => pathE e p
     | .otherS _ => none : Option (List Node)).map (fun l => l ++ [.stmtN s])

def pathO (o : Option Stmt) (p : Nat) : Option (List Node) :=
  match o with
  | none => none
  | some s => pathS s p

def pathL (l : List Stmt) (p : Nat) : Option (List Node) :=
  match l with
  | [] => none
  | s :: r =>
    match pathS s p with
    | some l => some l
    | none => pathL r p

def pathE (e : Expr) (p : Nat) : Option (List Node) :=
  if e.pos = p then some [.exprN e] else
    (match e with
     | .identE _ _ _ _ => none
     | .binary _ _ x y =>
       match pathE x p with
       | some l => some l
       | none => pathE y p
     | .callE _ fn args _ =>
       match pathE fn p with
       | some l => some l
       | none => pathEL args p
     | .selectorE _ x _ => pathE x p
     | .funcLit _ results body =>
       match (match results with
              | none => none
              | some ls => pathLL ls p : Option (List Node)) with
       | some l => some l
       | none => pathS body p
     | .otherE _ => none : Option (List Node)).map (fun l => l ++ [.exprN e])

def pathEL (l : List Expr) (p : Nat) : Option (List Node) :=
  match l with
  | [] => none
  | e :: r =>
    match pathE e p with
    | some l => some l
    | none => pathEL r p

def pathLL (ls : List (List Expr)) (p : Nat) : Option (List Node) :=
  match ls with
  | [] => none
  | l :: r =>
    match pathEL l p with
    | some x => some x
    | none => pathLL r p
end

/-- Path search inside an optional result-field list
(`FuncType.Results`). -/
def pathELL (o : Option (List (List Expr))) (p : Nat) : Option (List Node) :=
  match o with
  | none => none
  | some ls => pathLL ls p

mutual
/-- All `*ast.BlockStmt` nodes inside a statement, in preorder, each
as its list of statements (`inspector.Preorder` with a `BlockStmt`
filter). -/
def blocksS : Stmt → List (List Stmt)
  | .block _ l => l :: blocksL l
  | .ifS _ ini cond body els =>
    blocksO ini ++ blocksE cond ++ blocksS body ++ blocksO els
  | .ret _ results => blocksEL results
  | .assign _ lhs rhs => blocksEL lhs ++ blocksEL rhs
  | .caseClause _ body => blocksL body
  | .commClause _ body => blocksL body
  | .switchS _ body => blocksS body
  | .selectS _ body => blocksS body
  | .exprStmt _ e => blocksE e
  | .otherS _ => []

def blocksO : Option Stmt → List (List Stmt)
  | none => []
  | some s => blocksS s

def blocksL : List Stmt → List (List Stmt)
  | [] => []
  | s :: r => blocksS s ++ blocksL r

def blocksE : Expr → List (List Stmt)
  | .identE _ _ _ _ => []
  | .binary _ _ x y => blocksE x ++ blocksE y
  | .callE _ fn args _ => blocksE fn ++ blocksEL args
  | .selectorE _ x _ => blocksE x
  | .funcLit _ _ body => blocksS body
  | .otherE _ => []

def blocksEL : List Expr → List (List Stmt)
  | [] => []
  | e :: r => blocksE e ++ blocksEL r
end

mutual
/-- All `*ast.AssignStmt` nodes inside a statement, in preorder
(`inspector.Preorder` with an `AssignStmt` filter). -/
def assignsS : Stmt → List Stmt
  | .block _ l => assignsL l
  | .ifS _ ini cond body els =>
    assignsO ini ++ assignsE cond ++ assignsS body ++ assignsO els
  | .ret _ results => assignsEL results
  | .assign p lhs rhs => .assign p lhs rhs :: (assignsEL lhs ++ assignsEL rhs)
  | .caseClause _ body => assignsL body
  | .commClause _ body => assignsL body
  | .switchS _ body => assignsS body
  | .selectS _ body => assignsS body
  | .exprStmt _ e => assignsE e
  | .otherS _ => []

def assignsO : Option Stmt → List Stmt
  | none => []
  | some s => assignsS s

def assignsL : List Stmt → List Stmt
  | [] => []
  | s :: r => assignsS s ++ assignsL r

def assignsE : Expr → List Stmt
  | .identE _ _ _ _ => []
  | .binary _ _ x y => assignsE x ++ assignsE y
  | .callE _ fn args _ => assignsE fn ++ assignsEL args
  | .selectorE _ x _ => assignsE x
  | .funcLit _ _ body => assignsS body
  | .otherE _ => []

def assignsEL : List Expr → List Stmt
  | [] => []
  | e :: r => assignsE e ++ assignsEL r
end

/-- Path search inside a function declaration (results, then body). -/
def pathDecl (d : FuncDecl) (p : Nat) : Option (List Node) :=
  if d.pos = p then some [.declN d] else
    (match pathELL d.results p with
     | some l => some l
     | none => pathS d.body p : Option (List Node)).map (fun l => l ++ [.declN d])

def pathDecls (ds : List FuncDecl) (p : Nat) : Option (List Node) :=
  match ds with
  | [] => none
  | d :: r =>
    match pathDecl d p with
    | some l => some l
    | none => pathDecls r p

/-- `astutil.PathEnclosingInterval(file, p, ...)`: enclosing-node
path, innermost first, ending with the file node. -/
def pathFile (f : File) (p : Nat) : Option (List Node) :=
  if f.pos = p then some [.fileN f] else
    (pathDecls f.decls p).map (fun l => l ++ [.fileN f])

/-- `findFile(pass, node)`: the first file of the pass whose range
contains the node (range containment coincides with tree membership
here). -/
def findFile (pass : Pass) (p : Nat) : Option File :=
  pass.files.find? (fun f => (pathFile f p).isSome)

/-- Enclosing path of the node at position `p`, computed from the
node's file as the source does. -/
def pathEnclosing (pass : Pass) (p : Nat) : Option (List Node) :=
  match findFile pass p with
  | none => none
  | some f => pathFile f p

/-- `getStmtList`: statement list of a `*ast.BlockStmt`,
`*ast.CaseClause` or `*ast.CommClause`; `nil` for every other
node. -/
def getStmtList : Node → Option (List Stmt)
  | .stmtN (.block _ l) => some l
  | .stmtN (.caseClause _ l) => some l
  | .stmtN (.commClause _ l) => some l
  | _ => none

/-- `getBlockStmtFromBody`: the statement as a `*ast.BlockStmt`;
`nil` input, an `*ast.IfStmt` (an `else if` chain) and every other
kind yield `nil`. -/
def getBlockStmtFromBody : Option Stmt → Option Stmt
  | none => none
  | some s =>
    match s with
    | .block p l => some (.block p l)
    | .ifS _ _ _ _ _ => none
    | _ => none

mutual
/-- `isElseBlock(elseStmt, block)`: whether `block` occurs as (or
inside the `else`-chain of) the given else statement; the block is
identified by its position. -/
def isElseBlock : Option Stmt → Nat → Bool
  | none, _ => false
  | some s, bp => isElseBlockS s bp

def isElseBlockS : Stmt → Nat → Bool
  | .block p _, bp => decide (p = bp)
  | .ifS _ _ _ body els, bp => isElseBlock els bp || decide (body.pos = bp)
  | _, _ => false
end

/-- Name of an identifier expression (`ident.Name`). -/
def exprName : Expr → String
  | .identE _ n _ _ => n
  | _ => ""

/-- A reported diagnostic: `pass.Reportf(pos, msg, ...)`.  The Go
format strings quote the variable name with single quotes; the
quotes are immaterial to every claim and are dropped from the
embedded message text. -/
structure Diag where
  pos : Nat
  msg : String
deriving DecidableEq, Repr

/-- Message of the discard diagnostic. -/
def ignoredMsg : String := "error returned from function call is ignored"

/-- Message of the general per-assignment diagnostic. -/
def uncheckedMsg (name : String) : String :=
  "error " ++ name ++ " is not checked or returned"

/-- Message of the if-else merge diagnostic. -/
def mergeMsg (name : String) : String :=
  "error variable " ++ name ++ " assigned in if-else block is not checked"

/-- Bare-return lookup: walk the enclosing path to the first
`*ast.FuncDecl` and test whether any of its named result identifiers
resolves to the target; the loop `break`s at the first declaration
found, and a `nil` result list yields `false`.  Function literals on
the path are not declarations and are walked past. -/
def bareReturnNamed (path : List Node) (errIdent : Expr) : Bool :=
  match path with
  | [] => false
  | n :: rest =>
    match n with
    | .declN d =>
      match d.results with
      | none => false
      | some fields => fields.any (fun names => names.any (fun nm => isIdent nm errIdent))
    | _ => bareReturnNamed rest errIdent

/-- `isStmtAValidHandler(pass, stmt, errIdent)`: an `if` whose
condition checks the target, or a `return` that mentions the target
(or a bare return in a function declaring the target as a named
result). -/
def isStmtAValidHandler (pass : Pass) (s : Stmt) (errIdent : Expr) : Bool :=
  match s with
  | .ifS _ _ cond _ _ => checkCondition cond errIdent
  | .ret rp results =>
    if results.any (fun r => isIdent r errIdent) then true
    else if results.isEmpty then
      match pathEnclosing pass rp with
      | none => false
      | some path => bareReturnNamed path errIdent
    else false
  | _ => false

/-- The forward scan shared by the per-assignment pass and the merge
pass (`for j := ...+1; ...`): first handler wins, a reassignment
before any handler stops the scan unhandled, exhaustion is
unhandled. -/
def scanForward (pass : Pass) (errIdent : Expr) : List Stmt → Bool
  | [] => false
  | s :: rest =>
    if isStmtAValidHandler pass s errIdent then true
    else if isIdentifierReassigned s errIdent then false
    else scanForward pass errIdent rest

/-- `isHandledInIfInit(pass, errIdent, path)`: the owning statement
is exactly the `Init` clause of the immediately enclosing `if`, and
that `if`'s condition checks the target. -/
def isHandledInIfInit (errIdent : Expr) : List Node → Bool
  | n0 :: .stmtN (.ifS _ (some ini) cond _ _) :: _ =>
    if ini.pos = nodePos n0 then checkCondition cond errIdent else false
  | _ => false

/-- The statements strictly after the one at position `p` in a
statement list (`for j := stmtIdx+1; ...`); `none` if `p` does not
occur. -/
def findSuffixAfter : List Stmt → Nat → Option (List Stmt)
  | [], _ => none
  | s :: r, p => if s.pos = p then some r else findSuffixAfter r p

/-- `isHandledInSubsequentStatement(pass, errIdent, path)`: walk the
enclosing path outwards; at the first enclosing node owning a
statement list that contains the previous path entry, scan forward
from just after it and return that verdict; a node without a
statement list (or not containing the entry) is skipped. -/
def isHandledInSubsequentStatement (pass : Pass) (errIdent : Expr) : List Node → Bool
  | prev :: cur :: rest =>
    (match getStmtList cur with
     | none => isHandledInSubsequentStatement pass errIdent (cur :: rest)
     | some l =>
       match findSuffixAfter l (nodePos prev) with
       | none => isHandledInSubsequentStatement pass errIdent (cur :: rest)
       | some suffix => scanForward pass errIdent suffix)
  | _ => false

/-- Left-hand-side walk of `findLastUnhandledError` for one
assignment: every named, error-typed identifier that has no handler
in the remaining statements of the block overwrites the tracked
candidate. -/
def lhsScan (pass : Pass) (rest : List Stmt) (lhs : List Expr) (acc : Option Expr) : Option Expr :=
  lhs.foldl (fun a e =>
    match e with
    | .identE p n o t =>
      if n = "_" then a
      else if t then
        if rest.any (fun st => isStmtAValidHandler pass st (.identE p n o t)) then a
        else some (.identE p n o t)
      else a
    | _ => a) acc

/-- Statement walk of `findLastUnhandledError`: at each assignment,
update the tracked candidate from its left-hand sides against the
remaining statements of the same block. -/
def findLastCore (pass : Pass) : List Stmt → Option Expr → Option Expr
  | [], acc => acc
  | s :: rest, acc =>
    match s with
    | .assign _ lhs _ => findLastCore pass rest (lhsScan pass rest lhs acc)
    | _ => findLastCore pass rest acc

/-- `findLastUnhandledError(pass, block, errorInterface)`: the last
assigned-but-unhandled error identifier of a block (`nil` block →
`nil`). -/
def findLastUnhandledError (pass : Pass) : Option Stmt → Option Expr
  | none => none
  | some (.block _ l) => findLastCore pass l none
  | some _ => none

/-- Body of the first (`ifelse`) `inspector.Preorder` closure for one
block: for each two-armed `if` whose `else` is a plain block, find
the common-by-name last unhandled error of the two arms and scan the
remainder of the block for a handler, reporting at the `if`'s
position on failure. -/
def p1Block (pass : Pass) : List Stmt → List Diag
  | [] => []
  | s :: rest =>
    (match s with
     | .ifS p _ _ body els =>
       if els.isSome && (getBlockStmtFromBody els).isSome then
         match findLastUnhandledError pass (getBlockStmtFromBody (some body)),
               findLastUnhandledError pass (getBlockStmtFromBody els) with
         | some e1, some e2 =>
           if exprName e1 = exprName e2 then
             if scanForward pass e1 rest then [] else [⟨p, mergeMsg (exprName e1)⟩]
           else []
         | _, _ => []
       else []
     | _ => []) ++ p1Block pass rest

/-- `strings.HasSuffix(file.Name(), "_test.go")`. -/
def hasTestSuffix (name : String) : Bool :=
  "_test.go".data.isSuffixOf name.data

/-- Whether the skip-if-else guard of the per-assignment pass fires
for the given enclosing path: the assignment's parent is a block
that is the body of an `if` with an `else`, or a block somewhere on
that `if`'s `else` chain. -/
def skipIfElse : List Node → Bool
  | _ :: .stmtN (.block bp _) :: .stmtN (.ifS _ _ _ body els) :: _ =>
    (decide (body.pos = bp) && els.isSome) || isElseBlock els bp
  | _ => false

/-- The `for i := 0; i < results.Len(); i++` loop of the
per-assignment pass, over the per-result-position
implements-`error` flags, carrying the running index.  The
skip-if-else guard executes a `return`, aborting the remaining
result positions of this assignment. -/
def p2Loop (pass : Pass) (a : Stmt) (lhs : List Expr) : List Bool → Nat → List Diag
  | [], _ => []
  | b :: restB, i =>
    if !b then p2Loop pass a lhs restB (i + 1)
    else
      match lhs[i]? with
      | none => p2Loop pass a lhs restB (i + 1)
      | some e =>
        match e with
        | .identE ep en eo et =>
          if en = "_" then ⟨ep, ignoredMsg⟩ :: p2Loop pass a lhs restB (i + 1)
          else
            match pathEnclosing pass a.pos with
            | none => p2Loop pass a lhs restB (i + 1)
            | some path =>
              if skipIfElse path then []
              else if isHandledInIfInit (.identE ep en eo et) path then
                p2Loop pass a lhs restB (i + 1)
              else if isHandledInSubsequentStatement pass (.identE ep en eo et) path then
                p2Loop pass a lhs restB (i + 1)
              else ⟨ep, uncheckedMsg en⟩ :: p2Loop pass a lhs restB (i + 1)
        | _ => p2Loop pass a lhs restB (i + 1)

/-- Shape gate of the per-assignment pass: exactly one right-hand
side, which is a call whose callee type is a signature with at least
one result. -/
def p2Core (pass : Pass) (s : Stmt) : List Diag :=
  match s with
  | .assign ap lhs rhs =>
    match rhs with
    | [.callE _ _ _ (some results)] =>
      if results.isEmpty then [] else p2Loop pass (.assign ap lhs rhs) lhs results 0
    | _ => []
  | _ => []

/-- Body of the second (`errcheckif`) `inspector.Preorder` closure
for one assignment node: skip nodes positioned in a `_test.go` file,
then run the shape gate and result-position loop. -/
def p2Assign (pass : Pass) (s : Stmt) : List Diag :=
  match findFile pass s.pos with
  | some f => if hasTestSuffix f.name then [] else p2Core pass s
  | none => p2Core pass s

/-- Concatenation of the per-element diagnostics, mirroring the
append-only `pass.Reportf` sink over a `Preorder` traversal. -/
def listFlat (f : α → List β) : List α → List β
  | [] => []
  | a :: r => f a ++ listFlat f r

/-- All block statement lists of the pass, in file order and
preorder. -/
def passBlocks (pass : Pass) : List (List Stmt) :=
  listFlat (fun f => listFlat (fun d => blocksS d.body) f.decls) pass.files

/-- All assignment statements of the pass, in file order and
preorder. -/
def passAssigns (pass : Pass) : List Stmt :=
  listFlat (fun f => listFlat (fun d => assignsS d.body) f.decls) pass.files

/-- `run(pass)` after the `errorInterface` cache is populated: the
merge pass over every block, then the per-assignment pass over every
assignment. -/
def runPass (pass : Pass) : List Diag :=
  listFlat (p1Block pass) (passBlocks pass) ++ listFlat (p2Assign pass) (passAssigns pass)

/-- `run(pass)` with the process-wide `errorInterface` cache state
threaded explicitly.  `types.Universe.Lookup("error")` always
succeeds and its underlying type is an interface, so the
initialization always populates the cache; the cache content is a
fixed descriptor, modelled as `Unit`. -/
def runWithCache (cache : Option Unit) (pass : Pass) : List Diag × Option Unit :=
  match cache with
  | none => (runPass pass, some ())
  | some _ => (runPass pass, some ())

/-- The analyzer entry point as invoked by the driver on a fresh
process: empty cache, diagnostics returned. -/
def runAnalyzer (pass : Pass) : List Diag :=
  (runWithCache none pass).1

/-! ### Helper lemmas -/

theorem mem_listFlat {α β : Type} (f : α → List β) (l : List α) (b : β) :
    b ∈ listFlat f l ↔ ∃ a, a ∈ l ∧ b ∈ f a := by
  induction l with
  | nil => simp [listFlat]
  | cons x r ih => simp [listFlat, List.mem_append, ih]

/-- A plain assignment statement is never a handler. -/
theorem isStmtAValidHandler_assign (pass : Pass) (p : Nat) (lhs rhs : List Expr) (e : Expr) :
    isStmtAValidHandler pass (.assign p lhs rhs) e = false := rfl

/-- An assignment whose left-hand sides contain an identifier with
the target's object is a reassignment of the target. -/
theorem isIdentifierReassigned_assign_mem (p : Nat) (lhs rhs : List Expr) (e : Expr)
    (tobj : GoObj) (q : Expr) (hq : q ∈ lhs) (hobj : objOf q = some tobj)
    (he : objOf e = some tobj) :
    isIdentifierReassigned (.assign p lhs rhs) e = true := by
  unfold isIdentifierReassigned
  rw [he]
  simp only [reassignS]
  have hany : lhs.any (fun x =>
      match x with
      | .identE _ _ o _ => decide (o = some tobj)
      | _ => false) = true := by
    rw [List.any_eq_true]
    refine ⟨q, hq, ?_⟩
    cases q with
    | identE qp qn qo qt =>
      simp only [objOf] at hobj
      simp [hobj]
    | binary _ _ _ _ => simp [objOf] at hobj
    | callE _ _ _ _ => simp [objOf] at hobj
    | selectorE _ _ _ => simp [objOf] at hobj
    | funcLit _ _ _ => simp [objOf] at hobj
    | otherE _ => simp [objOf] at hobj
  rw [hany]
  simp

/-- The forward scan fails as soon as a reassignment of the target is
reached with no handler at or before it. -/
theorem scanForward_rebind_false (pass : Pass) (e : Expr) (l1 : List Stmt) (s : Stmt)
    (l2 : List Stmt)
    (h1 : ∀ t, t ∈ l1 → isStmtAValidHandler pass t e = false)
    (h2 : isStmtAValidHandler pass s e = false)
    (h3 : isIdentifierReassigned s e = true) :
    scanForward pass e (l1 ++ s :: l2) = false := by
  induction l1 with
  | nil => simp [scanForward, h2, h3]
  | cons t r ih =>
    have ht := h1 t (by simp)
    by_cases hr : isIdentifierReassigned t e
    · simp [scanForward, ht, hr]
    · simp only [List.cons_append, scanForward, ht, hr]
      simpa using ih (fun u hu => h1 u (by simp [hu]))

/-- The forward-statement search settles at the innermost enclosing
statement list containing the owner and returns the verdict of the
forward scan over the statements after it: outer sequences are never
consulted once an innermost list is found. -/
theorem ihss_innermost (pass : Pass) (e : Expr) (n0 n1 : Node) (rest : List Node)
    (l suf : List Stmt) (h1 : getStmtList n1 = some l)
    (h2 : findSuffixAfter l (nodePos n0) = some suf) :
    isHandledInSubsequentStatement pass e (n0 :: n1 :: rest) = scanForward pass e suf := by
  simp only [isHandledInSubsequentStatement, h1, h2]

/-- A path entry that owns no statement list is walked past. -/
theorem ihss_outward (pass : Pass) (e : Expr) (n0 n1 : Node) (rest : List Node)
    (h1 : getStmtList n1 = none) :
    isHandledInSubsequentStatement pass e (n0 :: n1 :: rest) =
      isHandledInSubsequentStatement pass e (n1 :: rest) := by
  simp only [isHandledInSubsequentStatement, h1]

/-- One step of the result-position loop preserves membership of
later diagnostics, provided the skip-if-else guard (the only abort)
cannot fire. -/
theorem p2Loop_tail_mem (pass : Pass) (a : Stmt) (lhs : List Expr) (b : Bool)
    (rb : List Bool) (i : Nat) (d : Diag)
    (hns : ∀ path, pathEnclosing pass a.pos = some path → skipIfElse path = false)
    (hd : d ∈ p2Loop pass a lhs rb (i + 1)) :
    d ∈ p2Loop pass a lhs (b :: rb) i := by
  cases b with
  | false => simpa [p2Loop] using hd
  | true =>
    simp only [p2Loop, Bool.not_true]
    rcases hli : lhs[i]? with _ | e
    · simpa [hli] using hd
    · simp only [hli]
      cases e with
      | identE ep en eo et =>
        by_cases hen : en = "_"
        · simp only [if_pos hen, Bool.false_eq_true, if_false]
          exact List.mem_cons_of_mem _ hd
        · simp only [if_neg hen, Bool.false_eq_true, if_false]
          rcases hpe : pathEnclosing pass a.pos with _ | path
          · simpa [hpe] using hd
          · simp only [hpe, hns path hpe, Bool.false_eq_true, if_false]
            cases h1 : isHandledInIfInit (.identE ep en eo et) path with
            | true => simpa using hd
            | false =>
              simp only [Bool.false_eq_true, if_false]
              cases h2 : isHandledInSubsequentStatement pass (.identE ep en eo et) path with
              | true => simpa using hd
              | false =>
                simp only [Bool.false_eq_true, if_false]
                exact List.mem_cons_of_mem _ hd
      | binary _ _ _ _ => simpa using hd
      | callE _ _ _ _ => simpa using hd
      | selectorE _ _ _ => simpa using hd
      | funcLit _ _ _ => simpa using hd
      | otherE _ => simpa using hd

/-- If result position `k` (relative to running index `i`) implements
the failure capability, its left-hand target is a named identifier,
and neither exonerating test succeeds, the unchecked diagnostic for
that identifier is emitted by the loop. -/
theorem p2Loop_unchecked_mem (pass : Pass) (a : Stmt) (lhs : List Expr)
    (bs : List Bool) (i k ep : Nat) (en : String) (eo : Option GoObj) (et : Bool)
    (path : List Node)
    (hb : bs[k]? = some true)
    (hl : lhs[i + k]? = some (.identE ep en eo et))
    (hn : ¬(en = "_"))
    (hpe : pathEnclosing pass a.pos = some path)
    (hskip : skipIfElse path = false)
    (hii : isHandledInIfInit (.identE ep en eo et) path = false)
    (hsub : isHandledInSubsequentStatement pass (.identE ep en eo et) path = false) :
    (⟨ep, uncheckedMsg en⟩ : Diag) ∈ p2Loop pass a lhs bs i := by
  induction bs generalizing i k with
  | nil => simp at hb
  | cons b rb ih =>
    cases k with
    | zero =>
      simp only [List.getElem?_cons_zero, Option.some.injEq] at hb
      subst hb
      simp only [Nat.add_zero] at hl
      simp only [p2Loop, Bool.not_true, Bool.false_eq_true, if_false, hl, if_neg hn, hpe,
        hskip, hii, hsub]
      exact List.mem_cons_self _ _
    | succ m =>
      have hb' : rb[m]? = some true := by simpa using hb
      have hl' : lhs[(i + 1) + m]? = some (.identE ep en eo et) := by
        have : (i + 1) + m = i + (m + 1) := by omega
        rw [this]; exact hl
      refine p2Loop_tail_mem pass a lhs b rb i _ (fun p hp => ?_) (ih (i + 1) m hb' hl')
      rw [hpe] at hp
      cases hp
      exact hskip

/-- If result position `k` implements the failure capability and its
left-hand target is the discard placeholder, the ignored diagnostic
is emitted by the loop (provided no earlier position aborts via the
skip-if-else guard). -/
theorem p2Loop_ignored_mem (pass : Pass) (a : Stmt) (lhs : List Expr)
    (bs : List Bool) (i k ep : Nat) (eo : Option GoObj) (et : Bool)
    (hns : ∀ path, pathEnclosing pass a.pos = some path → skipIfElse path = false)
    (hb : bs[k]? = some true)
    (hl : lhs[i + k]? = some (.identE ep "_" eo et)) :
    (⟨ep, ignoredMsg⟩ : Diag) ∈ p2Loop pass a lhs bs i := by
  induction bs generalizing i k with
  | nil => simp at hb
  | cons b rb ih =>
    cases k with
    | zero =>
      simp only [List.getElem?_cons_zero, Option.some.injEq] at hb
      subst hb
      simp only [Nat.add_zero] at hl
      simp only [p2Loop, Bool.not_true, Bool.false_eq_true, if_false, hl, if_pos rfl]
      exact List.mem_cons_self _ _
    | succ m =>
      have hb' : rb[m]? = some true := by simpa using hb
      have hl' : lhs[(i + 1) + m]? = some (.identE ep "_" eo et) := by
        have : (i + 1) + m = i + (m + 1) := by omega
        rw [this]; exact hl
      exact p2Loop_tail_mem pass a lhs b rb i _ hns (ih (i + 1) m hb' hl')

/-- A single named error position: full characterization of the loop
verdict. -/
theorem p2Loop_single_named (pass : Pass) (a : Stmt) (ep : Nat) (en : String)
    (eo : Option GoObj) (et : Bool) (path : List Node)
    (hn : ¬(en = "_")) (hpe : pathEnclosing pass a.pos = some path) :
    p2Loop pass a [.identE ep en eo et] [true] 0 =
      (if skipIfElse path then []
       else if isHandledInIfInit (.identE ep en eo et) path then []
       else if isHandledInSubsequentStatement pass (.identE ep en eo et) path then []
       else [⟨ep, uncheckedMsg en⟩]) := by
  cases h1 : skipIfElse path with
  | true => simp [p2Loop, hpe, hn, h1]
  | false =>
    cases h2 : isHandledInIfInit (.identE ep en eo et) path with
    | true => simp [p2Loop, hpe, hn, h1, h2]
    | false =>
      cases h3 : isHandledInSubsequentStatement pass (.identE ep en eo et) path with
      | true => simp [p2Loop, hpe, hn, h1, h2, h3]
      | false => simp [p2Loop, hpe, hn, h1, h2, h3]

/-- Shape gate of the per-assignment pass: a single-call right-hand
side with a signature owning at least one result enters the
result-position loop. -/
theorem p2Core_call (pass : Pass) (ap cp : Nat) (lhs args : List Expr) (fn : Expr)
    (results : List Bool) (hne : results ≠ []) :
    p2Core pass (.assign ap lhs [.callE cp fn args (some results)]) =
      p2Loop pass (.assign ap lhs [.callE cp fn args (some results)]) lhs results 0 := by
  cases results with
  | nil => exact absurd rfl hne
  | cons b rb => simp [p2Core]

/-- A node positioned outside every test-fixture file runs the
per-assignment core. -/
theorem p2Assign_not_test (pass : Pass) (s : Stmt)
    (h : ∀ f, findFile pass s.pos = some f → hasTestSuffix f.name = false) :
    p2Assign pass s = p2Core pass s := by
  simp only [p2Assign]
  rcases hf : findFile pass s.pos with _ | f
  · rfl
  · simp [h f hf]

/-- A diagnostic of the per-assignment pass for an assignment of the
tree is a diagnostic of the whole run. -/
theorem runPass_mem_p2 (pass : Pass) (a : Stmt) (d : Diag)
    (ha : a ∈ passAssigns pass) (hd : d ∈ p2Assign pass a) : d ∈ runPass pass := by
  unfold runPass
  rw [List.mem_append]
  exact Or.inr ((mem_listFlat _ _ _).mpr ⟨a, ha, hd⟩)

/-- A diagnostic of the merge pass for a block of the tree is a
diagnostic of the whole run. -/
theorem runPass_mem_p1 (pass : Pass) (l : List Stmt) (d : Diag)
    (hl : l ∈ passBlocks pass) (hd : d ∈ p1Block pass l) : d ∈ runPass pass := by
  unfold runPass
  rw [List.mem_append]
  exact Or.inl ((mem_listFlat _ _ _).mpr ⟨l, hl, hd⟩)

/-- Head equation of the merge pass for a two-armed conditional whose
else is a plain block and whose arms both report an unhandled error
candidate. -/
theorem p1Block_cons_merge (pass : Pass) (p : Nat) (ini : Option Stmt) (cond : Expr)
    (body : Stmt) (els : Option Stmt) (elsb : Stmt) (rest : List Stmt) (e1 e2 : Expr)
    (h1 : getBlockStmtFromBody els = some elsb)
    (h2 : findLastUnhandledError pass (getBlockStmtFromBody (some body)) = some e1)
    (h3 : findLastUnhandledError pass (getBlockStmtFromBody els) = some e2) :
    p1Block pass (.ifS p ini cond body els :: rest) =
      (if exprName e1 = exprName e2 ∧ scanForward pass e1 rest = false
       then [⟨p, mergeMsg (exprName e1)⟩] else []) ++ p1Block pass rest := by
  have hsome : els.isSome := by
    cases els with
    | none => simp [getBlockStmtFromBody] at h1
    | some _ => rfl
  have h3' : findLastUnhandledError pass (some elsb) = some e2 := by rw [← h1]; exact h3
  simp only [p1Block, hsome, h1, Option.isSome_some, Bool.and_self, if_true, h2, h3']
  by_cases hname : exprName e1 = exprName e2
  · simp only [if_pos hname, hname, if_pos rfl]
    cases hscan : scanForward pass e1 rest with
    | true => simp [hscan, hname]
    | false => simp [hscan, hname]
  · simp [hname]

/-- Head equation of the merge pass when an arm yields no unhandled
candidate: no merged obligation arises from this conditional. -/
theorem p1Block_cons_none (pass : Pass) (p : Nat) (ini : Option Stmt) (cond : Expr)
    (body : Stmt) (els : Option Stmt) (rest : List Stmt)
    (h : findLastUnhandledError pass (getBlockStmtFromBody (some body)) = none ∨
         findLastUnhandledError pass (getBlockStmtFromBody els) = none) :
    p1Block pass (.ifS p ini cond body els :: rest) = p1Block pass rest := by
  simp only [p1Block]
  cases hg : els.isSome && (getBlockStmtFromBody els).isSome with
  | false => simp [hg]
  | true =>
    simp only [hg, if_true]
    rcases h with h | h
    · rcases hother : findLastUnhandledError pass (getBlockStmtFromBody els) with _ | e <;>
        simp [h, hother]
    · rcases hother : findLastUnhandledError pass (getBlockStmtFromBody (some body)) with _ | e <;>
        simp [h, hother]

/-- Head equation of the merge pass when the else arm is a chained
`else if`: the conditional is skipped outright. -/
theorem p1Block_cons_elseif (pass : Pass) (p ip : Nat) (ini iini : Option Stmt)
    (cond icond : Expr) (body ibody : Stmt) (iels : Option Stmt) (rest : List Stmt) :
    p1Block pass (.ifS p ini cond body (some (.ifS ip iini icond ibody iels)) :: rest) =
      p1Block pass rest := by
  simp [p1Block, getBlockStmtFromBody]

/-- Every merge-pass diagnostic carries the merge message. -/
theorem p1Block_msg (pass : Pass) (l : List Stmt) (d : Diag) (hd : d ∈ p1Block pass l) :
    ∃ n, d.msg = mergeMsg n := by
  induction l with
  | nil => simp [p1Block] at hd
  | cons s rest ih =>
    simp only [p1Block, List.mem_append] at hd
    rcases hd with h | h
    · cases s
      case ifS p ini cond body els =>
        revert h
        cases hg : els.isSome && (getBlockStmtFromBody els).isSome with
        | false => simp [hg]
        | true =>
          simp only [hg, if_true]
          rcases hA : findLastUnhandledError pass (getBlockStmtFromBody (some body)) with _ | e1
          · simp
          · rcases hB : findLastUnhandledError pass (getBlockStmtFromBody els) with _ | e2
            · simp
            · by_cases hname : exprName e1 = exprName e2
              · simp only [if_pos hname]
                cases hscan : scanForward pass e1 rest with
                | true => simp
                | false =>
                  intro h
                  simp only [Bool.false_eq_true, if_false, List.mem_singleton] at h
                  exact ⟨exprName e1, by rw [h]⟩
              · simp [hname]
      all_goals simp at h
    · exact ih h

/-- Every per-result-position diagnostic carries the ignored or the
unchecked message. -/
theorem p2Loop_msg (pass : Pass) (a : Stmt) (lhs : List Expr) (bs : List Bool) (i : Nat)
    (d : Diag) (hd : d ∈ p2Loop pass a lhs bs i) :
    d.msg = ignoredMsg ∨ ∃ n, d.msg = uncheckedMsg n := by
  induction bs generalizing i with
  | nil => simp [p2Loop] at hd
  | cons b rb ih =>
    cases b with
    | false => exact ih (i + 1) (by simpa [p2Loop] using hd)
    | true =>
      simp only [p2Loop, Bool.not_true, Bool.false_eq_true, if_false] at hd
      rcases hli : lhs[i]? with _ | e
      · simp only [hli] at hd; exact ih (i + 1) hd
      · cases e
        case identE ep en eo et =>
          simp only [hli] at hd
          by_cases hen : en = "_"
          · rw [if_pos hen] at hd
            rcases List.mem_cons.mp hd with h | h
            · exact Or.inl (by rw [h])
            · exact ih (i + 1) h
          · rw [if_neg hen] at hd
            rcases hpe : pathEnclosing pass a.pos with _ | path
            · simp only [hpe] at hd; exact ih (i + 1) hd
            · simp only [hpe] at hd
              cases hs : skipIfElse path with
              | true => simp [hs] at hd
              | false =>
                simp only [hs, Bool.false_eq_true, if_false] at hd
                cases h1 : isHandledInIfInit (.identE ep en eo et) path with
                | true => simp only [h1, if_true] at hd; exact ih (i + 1) hd
                | false =>
                  simp only [h1, Bool.false_eq_true, if_false] at hd
                  cases h2 : isHandledInSubsequentStatement pass (.identE ep en eo et) path with
                  | true => simp only [h2, if_true] at hd; exact ih (i + 1) hd
                  | false =>
                    simp only [h2, Bool.false_eq_true, if_false] at hd
                    rcases List.mem_cons.mp hd with h | h
                    · exact Or.inr ⟨en, by rw [h]⟩
                    · exact ih (i + 1) h
        all_goals (simp only [hli] at hd; exact ih (i + 1) hd)

/-- Every diagnostic of the per-assignment shape gate carries the
ignored or the unchecked message. -/
theorem p2Core_msg (pass : Pass) (a : Stmt) (d : Diag) (hd : d ∈ p2Core pass a) :
    d.msg = ignoredMsg ∨ ∃ n, d.msg = uncheckedMsg n := by
  cases a
  case assign ap lhs rhs =>
    simp only [p2Core] at hd
    split at hd
    · split at hd
      · simp at hd
      · exact p2Loop_msg _ _ _ _ _ _ hd
    · simp at hd
  all_goals simp [p2Core] at hd

/-- Every diagnostic of the per-assignment pass carries the ignored
or the unchecked message. -/
theorem p2Assign_msg (pass : Pass) (s : Stmt) (d : Diag) (hd : d ∈ p2Assign pass s) :
    d.msg = ignoredMsg ∨ ∃ n, d.msg = uncheckedMsg n := by
  simp only [p2Assign] at hd
  rcases hf : findFile pass s.pos with _ | f
  · simp only [hf] at hd; exact p2Core_msg _ _ _ hd
  · simp only [hf] at hd
    cases ht : hasTestSuffix f.name with
    | true => simp [ht] at hd
    | false =>
      simp only [ht, Bool.false_eq_true, if_false] at hd
      exact p2Core_msg _ _ _ hd

/-- Every diagnostic of a whole run carries one of the three
messages. -/
theorem runPass_msg (pass : Pass) (d : Diag) (hd : d ∈ runPass pass) :
    (∃ n, d.msg = mergeMsg n) ∨ d.msg = ignoredMsg ∨ ∃ n, d.msg = uncheckedMsg n := by
  unfold runPass at hd
  rcases List.mem_append.mp hd with h | h
  · obtain ⟨l, _, hl⟩ := (mem_listFlat _ _ _).mp h
    exact Or.inl (p1Block_msg _ _ _ hl)
  · obtain ⟨a, _, ha⟩ := (mem_listFlat _ _ _).mp h
    exact Or.inr (p2Assign_msg _ _ _ ha)

/-! ### Concrete programs for the claims -/

/-- Family for C6 (explicit return): a function whose body returns an
identifier with object `rid`. -/
def c6aPass (rid : Nat) : Pass :=
  ⟨[⟨0, "main.go", [⟨100, none,
    .block 1 [.ret 6 [.identE 7 "err" (some (.varObj rid)) true]]⟩]⟩]⟩

/-- Family for C6 (bare return, named result slot `rid`). -/
def c6bPass (rid : Nat) : Pass :=
  ⟨[⟨0, "main.go", [⟨100, some [[.identE 101 "r" (some (.varObj rid)) true]],
    .block 1 [.ret 6 []]⟩]⟩]⟩

/-- Family for C6 (bare return, no result list at all). -/
def c6cPass : Pass :=
  ⟨[⟨0, "main.go", [⟨100, none, .block 1 [.ret 6 []]⟩]⟩]⟩

/-- Family for C10: a bare return inside a function literal (own
named result slot `lid`) nested in a declaration with named result
slot `rid`. -/
def c10Pass (rid lid : Nat) : Pass :=
  ⟨[⟨0, "main.go", [⟨100, some [[.identE 101 "r" (some (.varObj rid)) true]],
    .block 1 [.exprStmt 2 (.funcLit 3 (some [[.identE 4 "lr" (some (.varObj lid)) true]])
      (.block 5 [.ret 6 []]))]⟩]⟩]⟩

/-! ### Claim theorems -/

/-- C5: `checkCondition` on AND/OR is true iff it is true of either
operand; on EQ/NEQ it is true iff one side is an identifier with the
target's identity and the other the universe `nil`, in either order;
every other non-call expression shape yields false. -/
theorem claim5_condition_evaluator (t l r : Expr) (p : Nat) :
    checkCondition (.binary p .lor l r) t = (checkCondition l t || checkCondition r t)
    ∧ checkCondition (.binary p .land l r) t = (checkCondition l t || checkCondition r t)
    ∧ checkCondition (.binary p .eql l r) t =
        ((isIdent l t && isNil r) || (isNil l && isIdent r t))
    ∧ checkCondition (.binary p .neq l r) t =
        ((isIdent l t && isNil r) || (isNil l && isIdent r t))
    ∧ (∀ n o ty, checkCondition (.identE p n o ty) t = false)
    ∧ checkCondition (.binary p .otherOp l r) t = false
    ∧ checkCondition (.otherE p) t = false
    ∧ (∀ x sel, checkCondition (.selectorE p x sel) t = false)
    ∧ (∀ res body, checkCondition (.funcLit p res body) t = false) := by
  refine ⟨?_, ?_, ?_, ?_, ?_, ?_, ?_, ?_, ?_⟩ <;> simp [checkCondition]

/-- C6: a return classifies as a handler exactly when some result is
an identifier with the target's identity, or it is bare and the
enclosing declaration owns a named result slot with the target's
identity; a bare return under a declaration without such a slot is
no handler. -/
theorem claim6_return_handler (rid tid : Nat) :
    isStmtAValidHandler (c6aPass rid) (.ret 6 [.identE 7 "err" (some (.varObj rid)) true])
      (.identE 50 "err" (some (.varObj tid)) true) = decide (rid = tid)
    ∧ isStmtAValidHandler (c6bPass rid) (.ret 6 [])
      (.identE 50 "err" (some (.varObj tid)) true) = decide (rid = tid)
    ∧ isStmtAValidHandler c6cPass (.ret 6 [])
      (.identE 50 "err" (some (.varObj tid)) true) = false := by
  refine ⟨?_, ?_, ?_⟩
  · by_cases h : rid = tid <;>
      simp [c6aPass, isStmtAValidHandler, isIdent, objOf, h]
  · by_cases h : rid = tid <;>
      simp [c6bPass, isStmtAValidHandler, pathEnclosing, findFile, pathFile, pathDecls,
        pathDecl, pathS, pathL, pathE, pathEL, pathLL, pathELL, bareReturnNamed, isIdent,
        objOf, nodePos, Stmt.pos, Expr.pos, h]
  · rfl

/-- C9: the analysis is a pure function of the tree; with the
process-wide capability cache threaded explicitly, a second run on
the same pass returns the same diagnostics, and the diagnostics do
not depend on the initial cache state. -/
theorem claim9_idempotent (pass : Pass) (c : Option Unit) :
    (runWithCache c pass).1 = (runWithCache (runWithCache c pass).2 pass).1
    ∧ (∀ c2, (runWithCache c pass).1 = (runWithCache c2 pass).1)
    ∧ runAnalyzer pass = runPass pass := by
  cases c <;> exact ⟨rfl, fun c2 => by cases c2 <;> rfl, rfl⟩

/-- C10: a bare return inside a function literal is classified
against the named result slots of the innermost enclosing function
declaration on the path — the literal's own result list (slot `lid`)
is ignored, so the verdict depends only on the declaration's slot
`rid`. -/
theorem claim10_funclit_bare_return (rid lid tid : Nat) :
    isStmtAValidHandler (c10Pass rid lid) (.ret 6 [])
      (.identE 50 "err" (some (.varObj tid)) true) = decide (rid = tid) := by
  by_cases h : rid = tid <;>
    simp [c10Pass, isStmtAValidHandler, pathEnclosing, findFile, pathFile, pathDecls,
      pathDecl, pathS, pathL, pathE, pathEL, pathLL, pathELL, bareReturnNamed, isIdent,
      objOf, nodePos, Stmt.pos, Expr.pos, h]

/-- Witness program for C1: `err := f(); err = g()` with no further
statements — the first binding's only forward statement is an
unconditional re-binding of the same identity. -/
def c1decl : FuncDecl :=
  ⟨100, none, .block 1 [
    .assign 2 [.identE 3 "err" (some (.varObj 1)) true] [.callE 4 (.otherE 5) [] (some [true])],
    .assign 6 [.identE 7 "err" (some (.varObj 1)) true] [.callE 8 (.otherE 9) [] (some [true])]]⟩

def c1file : File := ⟨0, "main.go", [c1decl]⟩

def c1wit : Pass := ⟨[c1file]⟩

/-- C1: the forward scan returns false as soon as it meets, before
any handler, a statement whose nested structure re-binds the
target's identity; and a candidate binding whose only forward
statement in its innermost enclosing sequence is an unconditional
re-binding of the same identity is reported by the driver. -/
theorem claim1_rebinding_reported :
    (∀ (pass : Pass) (e : Expr) (l1 : List Stmt) (s : Stmt) (l2 : List Stmt),
        (∀ t, t ∈ l1 → isStmtAValidHandler pass t e = false) →
        isStmtAValidHandler pass s e = false →
        isIdentifierReassigned s e = true →
        scanForward pass e (l1 ++ s :: l2) = false)
    ∧
    (∀ (pass : Pass) (ap cp k ep sp : Nat) (en : String) (tobj : GoObj) (et : Bool)
        (lhs args slhs srhs : List Expr) (fn q : Expr) (results : List Bool)
        (n1 : Node) (rest : List Node) (l : List Stmt),
        results[k]? = some true →
        lhs[k]? = some (.identE ep en (some tobj) et) →
        ¬(en = "_") →
        (∀ f, findFile pass ap = some f → hasTestSuffix f.name = false) →
        pathEnclosing pass ap =
          some (.stmtN (.assign ap lhs [.callE cp fn args (some results)]) :: n1 :: rest) →
        skipIfElse
          (.stmtN (.assign ap lhs [.callE cp fn args (some results)]) :: n1 :: rest) = false →
        isHandledInIfInit (.identE ep en (some tobj) et)
          (.stmtN (.assign ap lhs [.callE cp fn args (some results)]) :: n1 :: rest) = false →
        getStmtList n1 = some l →
        findSuffixAfter l ap = some [.assign sp slhs srhs] →
        q ∈ slhs → objOf q = some tobj →
        (.assign ap lhs [.callE cp fn args (some results)]) ∈ passAssigns pass →
        (⟨ep, uncheckedMsg en⟩ : Diag) ∈ runPass pass) := by
  constructor
  · exact scanForward_rebind_false
  · intro pass ap cp k ep sp en tobj et lhs args slhs srhs fn q results n1 rest l
      hrk hlk hn htest hpath hskip hii hgl hsuf hq hqobj hmem
    have hreass : isIdentifierReassigned (.assign sp slhs srhs)
        (.identE ep en (some tobj) et) = true :=
      isIdentifierReassigned_assign_mem sp slhs srhs _ tobj q hq hqobj rfl
    have hscan : scanForward pass (.identE ep en (some tobj) et)
        ([] ++ .assign sp slhs srhs :: []) = false :=
      scanForward_rebind_false pass _ [] _ [] (by intro t ht; simp at ht)
        (isStmtAValidHandler_assign pass sp slhs srhs _) hreass
    have hsub : isHandledInSubsequentStatement pass (.identE ep en (some tobj) et)
        (.stmtN (.assign ap lhs [.callE cp fn args (some results)]) :: n1 :: rest) = false := by
      rw [ihss_innermost pass (.identE ep en (some tobj) et)
        (.stmtN (.assign ap lhs [.callE cp fn args (some results)])) n1 rest l
        [.assign sp slhs srhs] hgl hsuf]
      simpa using hscan
    have hloop : (⟨ep, uncheckedMsg en⟩ : Diag) ∈
        p2Loop pass (.assign ap lhs [.callE cp fn args (some results)]) lhs results 0 :=
      p2Loop_unchecked_mem pass _ lhs results 0 k ep en (some tobj) et _ hrk
        (by simpa using hlk) hn hpath hskip hii hsub
    have hne : results ≠ [] := by intro h; subst h; simp at hrk
    have heq : p2Assign pass (.assign ap lhs [.callE cp fn args (some results)]) =
        p2Loop pass (.assign ap lhs [.callE cp fn args (some results)]) lhs results 0 := by
      rw [p2Assign_not_test pass (.assign ap lhs [.callE cp fn args (some results)])
        (fun f hf => htest f hf), p2Core_call pass ap cp lhs args fn results hne]
    exact runPass_mem_p2 pass _ _ hmem (heq ▸ hloop)

/-- Witness for C1 at the concrete two-assignment program. -/
theorem claim1_witness :
    scanForward c1wit (.identE 3 "err" (some (.varObj 1)) true)
      ([] ++ .assign 6 [.identE 7 "err" (some (.varObj 1)) true]
        [.callE 8 (.otherE 9) [] (some [true])] :: []) = false
    ∧ (⟨3, uncheckedMsg "err"⟩ : Diag) ∈ runPass c1wit := by
  constructor
  · exact claim1_rebinding_reported.1 c1wit _ [] _ []
      (by intro t ht; simp at ht) rfl rfl
  · exact claim1_rebinding_reported.2 c1wit 2 4 0 3 6 "err" (.varObj 1) true
      [.identE 3 "err" (some (.varObj 1)) true] []
      [.identE 7 "err" (some (.varObj 1)) true] [.callE 8 (.otherE 9) [] (some [true])]
      (.otherE 5) (.identE 7 "err" (some (.varObj 1)) true) [true]
      (.stmtN c1decl.body) [.declN c1decl, .fileN c1file]
      [.assign 2 [.identE 3 "err" (some (.varObj 1)) true] [.callE 4 (.otherE 5) [] (some [true])],
       .assign 6 [.identE 7 "err" (some (.varObj 1)) true] [.callE 8 (.otherE 9) [] (some [true])]]
      rfl rfl (by decide)
      (fun f hf => by
        have h2 : some c1file = some f := hf
        injection h2 with h3
        subst h3
        decide)
      rfl rfl rfl rfl rfl (List.Mem.head _) rfl (List.Mem.head _)

/-- Counterexample program for C2: both arms assign an error into a
variable of surface name `err`, but the two declarations are distinct
(objects 1 and 2 — pervasive-shadowing scenario). -/
def c2thenB : Stmt :=
  .block 4 [.assign 5 [.identE 6 "err" (some (.varObj 1)) true] [.callE 7 (.otherE 16) [] none]]

def c2elseB : Stmt :=
  .block 8 [.assign 9 [.identE 10 "err" (some (.varObj 2)) true] [.callE 11 (.otherE 17) [] none]]

def c2cex : Pass :=
  ⟨[⟨0, "main.go", [⟨100, none, .block 1 [.ifS 2 none (.otherE 3) c2thenB (some c2elseB)]⟩]⟩]⟩

/-- C2 counterexample: both arms yield a last-unhandled candidate and
those candidates carry DIFFERENT identity tokens, yet the merge pass
still produces the merged obligation and reports it — the merge test
compares surface names, not identities. -/
theorem claim2_counterexample :
    (findLastUnhandledError c2cex (getBlockStmtFromBody (some c2thenB))).bind objOf =
      some (.varObj 1)
    ∧ (findLastUnhandledError c2cex (getBlockStmtFromBody (some c2elseB))).bind objOf =
      some (.varObj 2)
    ∧ (findLastUnhandledError c2cex (getBlockStmtFromBody (some c2thenB))).bind objOf ≠
      (findLastUnhandledError c2cex (getBlockStmtFromBody (some c2elseB))).bind objOf
    ∧ runPass c2cex = [⟨2, mergeMsg "err"⟩] :=
  ⟨rfl, rfl, by decide, rfl⟩

/-- C2 (amended): the merge pass produces the merged obligation iff
both arms yield a non-none last-unhandled candidate and the two
candidates carry the same SURFACE NAME; the merged candidate is then
scanned forward from just after the conditional with the shared
handler/reassignment rules, and the diagnostic is emitted iff that
scan fails; if either arm yields none, no merged obligation
arises. -/
theorem claim2_name_based_merge :
    (∀ (pass : Pass) (p : Nat) (ini : Option Stmt) (cond : Expr) (body : Stmt)
        (els : Option Stmt) (elsb : Stmt) (rest : List Stmt) (e1 e2 : Expr),
        getBlockStmtFromBody els = some elsb →
        findLastUnhandledError pass (getBlockStmtFromBody (some body)) = some e1 →
        findLastUnhandledError pass (getBlockStmtFromBody els) = some e2 →
        p1Block pass (.ifS p ini cond body els :: rest) =
          (if exprName e1 = exprName e2 ∧ scanForward pass e1 rest = false
           then [⟨p, mergeMsg (exprName e1)⟩] else []) ++ p1Block pass rest)
    ∧ (∀ (pass : Pass) (p : Nat) (ini : Option Stmt) (cond : Expr) (body : Stmt)
        (els : Option Stmt) (rest : List Stmt),
        findLastUnhandledError pass (getBlockStmtFromBody (some body)) = none ∨
        findLastUnhandledError pass (getBlockStmtFromBody els) = none →
        p1Block pass (.ifS p ini cond body els :: rest) = p1Block pass rest) :=
  ⟨p1Block_cons_merge, p1Block_cons_none⟩

/-- Witness for C2 at the concrete two-armed program. -/
theorem claim2_witness :
    p1Block c2cex [.ifS 2 none (.otherE 3) c2thenB (some c2elseB)] =
      (if exprName (.identE 6 "err" (some (.varObj 1)) true) =
            exprName (.identE 10 "err" (some (.varObj 2)) true)
          ∧ scanForward c2cex (.identE 6 "err" (some (.varObj 1)) true) [] = false
       then [⟨2, mergeMsg (exprName (.identE 6 "err" (some (.varObj 1)) true))⟩] else []) ++
        p1Block c2cex [] :=
  claim2_name_based_merge.1 c2cex 2 none (.otherE 3) c2thenB (some c2elseB) c2elseB []
    (.identE 6 "err" (some (.varObj 1)) true) (.identE 10 "err" (some (.varObj 2)) true)
    rfl rfl rfl

/-- Counterexample program for C3: an if-init binding whose
conditional's condition does NOT check it, followed in the enclosing
sequence by a separate `if err != nil` check. -/
def c3init : Stmt :=
  .assign 3 [.identE 7 "err" (some (.varObj 1)) true] [.callE 4 (.otherE 5) [] (some [true])]

def c3if1 : Stmt := .ifS 2 (some c3init) (.otherE 6) (.block 9 []) none

def c3if2 : Stmt :=
  .ifS 20 none (.binary 21 .neq (.identE 22 "err" (some (.varObj 1)) true)
    (.identE 23 "nil" (some .universeNil) false)) (.block 24 []) none

def c3cex : Pass := ⟨[⟨0, "main.go", [⟨100, none, .block 1 [c3if1, c3if2]⟩]⟩]⟩

/-- C3 counterexample: the initializer-bound candidate's conditional
condition does not check it, yet the engine exonerates the binding
(no diagnostic) because the forward scan continues after the
enclosing conditional and finds the later check — the condition is
not the sole forward check. -/
theorem claim3_counterexample :
    checkCondition (.otherE 6) (.identE 7 "err" (some (.varObj 1)) true) = false
    ∧ (pathEnclosing c3cex 3).map
        (isHandledInIfInit (.identE 7 "err" (some (.varObj 1)) true)) = some false
    ∧ (pathEnclosing c3cex 3).map
        (isHandledInSubsequentStatement c3cex (.identE 7 "err" (some (.varObj 1)) true)) =
      some true
    ∧ runPass c3cex = [] :=
  ⟨rfl, rfl, rfl, rfl⟩

/-- C3 (amended): for an initializer-clause candidate the engine
first evaluates the conditional's own condition (`isHandledInIfInit`
reduces to `checkCondition` of that condition); if that fails, the
forward-statement search walks past the conditional node into the
enclosing sequence and scans forward from after the conditional;
once an innermost owning sequence is found the scan verdict is final
(no continuation into outer sequences); a named candidate is
reported iff neither the if-init test nor that forward search
succeeds. -/
theorem claim3_initializer_scan :
    (∀ (e : Expr) (n0 : Node) (p : Nat) (ini : Stmt) (cond : Expr) (body : Stmt)
        (els : Option Stmt) (rest : List Node),
        ini.pos = nodePos n0 →
        isHandledInIfInit e (n0 :: .stmtN (.ifS p (some ini) cond body els) :: rest) =
          checkCondition cond e)
    ∧ (∀ (pass : Pass) (e : Expr) (n0 n1 : Node) (rest : List Node),
        getStmtList n1 = none →
        isHandledInSubsequentStatement pass e (n0 :: n1 :: rest) =
          isHandledInSubsequentStatement pass e (n1 :: rest))
    ∧ (∀ (pass : Pass) (e : Expr) (n0 n1 : Node) (rest : List Node) (l suf : List Stmt),
        getStmtList n1 = some l →
        findSuffixAfter l (nodePos n0) = some suf →
        isHandledInSubsequentStatement pass e (n0 :: n1 :: rest) = scanForward pass e suf)
    ∧ (∀ (pass : Pass) (a : Stmt) (ep : Nat) (en : String) (eo : Option GoObj) (et : Bool)
        (path : List Node),
        ¬(en = "_") → pathEnclosing pass a.pos = some path → skipIfElse path = false →
        p2Loop pass a [.identE ep en eo et] [true] 0 =
          (if isHandledInIfInit (.identE ep en eo et) path ||
              isHandledInSubsequentStatement pass (.identE ep en eo et) path
           then [] else [⟨ep, uncheckedMsg en⟩])) := by
  refine ⟨?_, ihss_outward, ihss_innermost, ?_⟩
  · intro e n0 p ini cond body els rest h
    simp [isHandledInIfInit, h]
  · intro pass a ep en eo et path hn hpe hskip
    rw [p2Loop_single_named pass a ep en eo et path hn hpe, if_neg (by simp [hskip])]
    cases h1 : isHandledInIfInit (.identE ep en eo et) path <;>
      cases h2 : isHandledInSubsequentStatement pass (.identE ep en eo et) path <;> simp

/-- Witness for C3 at the concrete if-init program. -/
theorem claim3_witness :
    isHandledInIfInit (.identE 7 "err" (some (.varObj 1)) true)
      (.stmtN c3init :: .stmtN c3if1 :: []) =
      checkCondition (.otherE 6) (.identE 7 "err" (some (.varObj 1)) true)
    ∧ isHandledInSubsequentStatement c3cex (.identE 7 "err" (some (.varObj 1)) true)
        (.stmtN c3init :: .stmtN c3if1 :: .stmtN (.block 1 [c3if1, c3if2]) :: []) =
      isHandledInSubsequentStatement c3cex (.identE 7 "err" (some (.varObj 1)) true)
        (.stmtN c3if1 :: .stmtN (.block 1 [c3if1, c3if2]) :: [])
    ∧ isHandledInSubsequentStatement c3cex (.identE 7 "err" (some (.varObj 1)) true)
        (.stmtN c3if1 :: .stmtN (.block 1 [c3if1, c3if2]) :: []) =
      scanForward c3cex (.identE 7 "err" (some (.varObj 1)) true) [c3if2]
    ∧ p2Loop c3cex c3init [.identE 7 "err" (some (.varObj 1)) true] [true] 0 =
      (if isHandledInIfInit (.identE 7 "err" (some (.varObj 1)) true)
            (.stmtN c3init :: .stmtN c3if1 :: .stmtN (.block 1 [c3if1, c3if2]) ::
              .declN ⟨100, none, .block 1 [c3if1, c3if2]⟩ ::
              .fileN ⟨0, "main.go", [⟨100, none, .block 1 [c3if1, c3if2]⟩]⟩ :: []) ||
          isHandledInSubsequentStatement c3cex (.identE 7 "err" (some (.varObj 1)) true)
            (.stmtN c3init :: .stmtN c3if1 :: .stmtN (.block 1 [c3if1, c3if2]) ::
              .declN ⟨100, none, .block 1 [c3if1, c3if2]⟩ ::
              .fileN ⟨0, "main.go", [⟨100, none, .block 1 [c3if1, c3if2]⟩]⟩ :: [])
       then [] else [⟨7, uncheckedMsg "err"⟩]) := by
  refine ⟨claim3_initializer_scan.1 _ _ 2 c3init _ (.block 9 []) none _ rfl,
    claim3_initializer_scan.2.1 c3cex _ _ _ _ rfl,
    claim3_initializer_scan.2.2.1 c3cex _ _ _ _ [c3if1, c3if2] [c3if2] rfl rfl,
    claim3_initializer_scan.2.2.2 c3cex c3init 7 "err" (some (.varObj 1)) true _
      (by decide) rfl rfl⟩

/-- Counterexample program for C4: an error assignment in the
then-arm of an `if / else if` chain with no further statements. -/
def c4assign : Stmt :=
  .assign 5 [.identE 6 "err" (some (.varObj 1)) true] [.callE 7 (.otherE 8) [] (some [true])]

def c4cex : Pass :=
  ⟨[⟨0, "main.go", [⟨100, none, .block 1 [
    .ifS 2 none (.otherE 3) (.block 4 [c4assign])
      (some (.ifS 9 none (.otherE 10) (.block 11 []) none))]⟩]⟩]⟩

/-- Program with the candidate inside the else-if arm instead: this
one IS analyzed by the per-assignment scanner and reported. -/
def c4bAssign : Stmt :=
  .assign 12 [.identE 13 "err" (some (.varObj 1)) true] [.callE 14 (.otherE 15) [] (some [true])]

def c4bPass : Pass :=
  ⟨[⟨0, "main.go", [⟨100, none, .block 1 [
    .ifS 2 none (.otherE 3) (.block 4 [])
      (some (.ifS 9 none (.otherE 10) (.block 11 [c4bAssign]) none))]⟩]⟩]⟩

/-- C4 counterexample: the then-arm candidate of an if/else-if chain
is unhandled per the sequence scanner and no merge obligation covers
the chain (else-if is excluded), yet the run emits no diagnostic at
all — the per-assignment pass skipped the assignment although it is
not subsumed by any merge obligation. -/
theorem claim4_counterexample :
    (pathEnclosing c4cex 5).map
        (isHandledInSubsequentStatement c4cex (.identE 6 "err" (some (.varObj 1)) true)) =
      some false
    ∧ (pathEnclosing c4cex 5).map
        (isHandledInIfInit (.identE 6 "err" (some (.varObj 1)) true)) = some false
    ∧ runPass c4cex = [] :=
  ⟨rfl, rfl, rfl⟩

/-- C4 (amended): a conditional whose else-arm is a chained `else if`
is excluded from the merge rule; but an assignment inside the
then-arm (or any else-block) of a conditional that has ANY else
branch is skipped by the per-assignment pass even when no merge
obligation subsumes it; only an assignment in an else-if arm whose
own conditional lacks an else branch is still analyzed by the
general per-assignment scanner. -/
theorem claim4_else_if_scope :
    (∀ (pass : Pass) (p ip : Nat) (ini iini : Option Stmt) (cond icond : Expr)
        (body ibody : Stmt) (iels : Option Stmt) (rest : List Stmt),
        p1Block pass (.ifS p ini cond body (some (.ifS ip iini icond ibody iels)) :: rest) =
          p1Block pass rest)
    ∧ (∀ (n0 : Node) (bp : Nat) (bl : List Stmt) (p : Nat) (ini : Option Stmt) (cond : Expr)
        (body : Stmt) (els : Option Stmt) (rest : List Node),
        body.pos = bp → els.isSome = true →
        skipIfElse (n0 :: .stmtN (.block bp bl) :: .stmtN (.ifS p ini cond body els) :: rest) =
          true)
    ∧ (∀ (pass : Pass) (a : Stmt) (ep : Nat) (en : String) (eo : Option GoObj) (et : Bool)
        (path : List Node),
        ¬(en = "_") → pathEnclosing pass a.pos = some path → skipIfElse path = true →
        p2Loop pass a [.identE ep en eo et] [true] 0 = [])
    ∧ (⟨13, uncheckedMsg "err"⟩ : Diag) ∈ runPass c4bPass := by
  refine ⟨p1Block_cons_elseif, ?_, ?_, ?_⟩
  · intro n0 bp bl p ini cond body els rest h1 h2
    simp [skipIfElse, h1, h2]
  · intro pass a ep en eo et path hn hpe hskip
    rw [p2Loop_single_named pass a ep en eo et path hn hpe, if_pos (by simp [hskip])]
  · exact List.Mem.head _

/-- Witness for C4 at the concrete if/else-if program. -/
theorem claim4_witness :
    p1Block c4cex [.ifS 2 none (.otherE 3) (.block 4 [c4assign])
        (some (.ifS 9 none (.otherE 10) (.block 11 []) none))] = p1Block c4cex []
    ∧ skipIfElse (.stmtN c4assign :: .stmtN (.block 4 [c4assign]) ::
        .stmtN (.ifS 2 none (.otherE 3) (.block 4 [c4assign])
          (some (.ifS 9 none (.otherE 10) (.block 11 []) none))) :: []) = true
    ∧ p2Loop c4cex c4assign [.identE 6 "err" (some (.varObj 1)) true] [true] 0 = [] := by
  refine ⟨claim4_else_if_scope.1 c4cex 2 9 none none (.otherE 3) (.otherE 10)
      (.block 4 [c4assign]) (.block 11 []) none [],
    claim4_else_if_scope.2.1 _ 4 [c4assign] 2 none (.otherE 3) (.block 4 [c4assign])
      (some (.ifS 9 none (.otherE 10) (.block 11 []) none)) [] rfl rfl,
    claim4_else_if_scope.2.2.1 c4cex c4assign 6 "err" (some (.varObj 1)) true _
      (by decide) rfl rfl⟩

/-- Counterexample program for C7: a merge-pattern violation inside
a file whose name carries the test suffix. -/
def c7arm1 : Stmt :=
  .assign 5 [.identE 6 "err" (some (.varObj 1)) true] [.callE 7 (.otherE 16) [] none]

def c7arm2 : Stmt :=
  .assign 9 [.identE 10 "err" (some (.varObj 1)) true] [.callE 11 (.otherE 17) [] none]

def c7file : File :=
  ⟨0, "a_test.go", [⟨100, none,
    .block 1 [.ifS 2 none (.otherE 3) (.block 4 [c7arm1]) (some (.block 8 [c7arm2]))]⟩]⟩

def c7cex : Pass := ⟨[c7file]⟩

/-- C7 counterexample: the source unit is a test fixture, yet the run
still emits the if-else merge diagnostic — only the per-assignment
pass consults the test-suffix policy. -/
theorem claim7_counterexample :
    hasTestSuffix c7file.name = true
    ∧ runPass c7cex = [⟨2, mergeMsg "err"⟩] :=
  ⟨by decide, rfl⟩

/-- C7 (amended): for a node positioned in a test-fixture file the
per-assignment pass emits nothing at all, but the if-else merge pass
is not filtered by the test-fixture policy and still reports. -/
theorem claim7_test_fixture_skip :
    (∀ (pass : Pass) (s : Stmt) (f : File),
        findFile pass s.pos = some f → hasTestSuffix f.name = true → p2Assign pass s = [])
    ∧ (⟨2, mergeMsg "err"⟩ : Diag) ∈ runPass c7cex := by
  constructor
  · intro pass s f hf ht
    simp [p2Assign, hf, ht]
  · exact List.Mem.head _

/-- Witness for C7: the per-assignment pass is silent on an
assignment of the test-fixture file. -/
theorem claim7_witness : p2Assign c7cex c7arm1 = [] :=
  claim7_test_fixture_skip.1 c7cex c7arm1 c7file rfl (by decide)

/-- Counterexample program for C8: `err, _ := f()` (both result
positions failure-capable) inside the then-arm of an if-else. -/
def c8assign : Stmt :=
  .assign 5 [.identE 6 "err" (some (.varObj 1)) true, .identE 7 "_" none false]
    [.callE 8 (.otherE 9) [] (some [true, true])]

def c8cex : Pass :=
  ⟨[⟨0, "main.go", [⟨100, none, .block 1 [
    .ifS 2 none (.otherE 3) (.block 4 [c8assign]) (some (.block 10 []))]⟩]⟩]⟩

/-- C8 counterexample: the assignment has a single-call right-hand
side, result position 1 is failure-capable and its left-hand target
is the discard placeholder, yet the run emits no ignored diagnostic
(nor any other): the in-arm skip `return` aborts the result-position
loop before position 1 is examined. -/
theorem claim8_counterexample :
    c8assign = .assign 5 [.identE 6 "err" (some (.varObj 1)) true, .identE 7 "_" none false]
      [.callE 8 (.otherE 9) [] (some [true, true])]
    ∧ c8assign ∈ passAssigns c8cex
    ∧ runPass c8cex = [] :=
  ⟨rfl, List.Mem.head _, rfl⟩

/-- C8 (amended): a failure-capable result position bound to the
discard placeholder is reported with the ignored diagnostic whenever
the skip-if-else guard cannot abort the loop earlier (in particular
outside if-else arms); and every diagnostic of a run carries one of
exactly three messages: merge, ignored, or unchecked. -/
theorem claim8_discard_and_messages :
    (∀ (pass : Pass) (ap cp k ep : Nat) (eo : Option GoObj) (et : Bool)
        (lhs args : List Expr) (fn : Expr) (results : List Bool),
        results[k]? = some true →
        lhs[k]? = some (.identE ep "_" eo et) →
        (∀ f, findFile pass ap = some f → hasTestSuffix f.name = false) →
        (∀ path, pathEnclosing pass ap = some path → skipIfElse path = false) →
        (.assign ap lhs [.callE cp fn args (some results)]) ∈ passAssigns pass →
        (⟨ep, ignoredMsg⟩ : Diag) ∈ runPass pass)
    ∧ (∀ (pass : Pass) (d : Diag), d ∈ runPass pass →
        (∃ n, d.msg = mergeMsg n) ∨ d.msg = ignoredMsg ∨ ∃ n, d.msg = uncheckedMsg n) := by
  constructor
  · intro pass ap cp k ep eo et lhs args fn results hrk hlk htest hskip hmem
    have hloop : (⟨ep, ignoredMsg⟩ : Diag) ∈
        p2Loop pass (.assign ap lhs [.callE cp fn args (some results)]) lhs results 0 :=
      p2Loop_ignored_mem pass _ lhs results 0 k ep eo et (fun path hp => hskip path hp) hrk
        (by simpa using hlk)
    have hne : results ≠ [] := by intro h; subst h; simp at hrk
    have heq : p2Assign pass (.assign ap lhs [.callE cp fn args (some results)]) =
        p2Loop pass (.assign ap lhs [.callE cp fn args (some results)]) lhs results 0 := by
      rw [p2Assign_not_test pass (.assign ap lhs [.callE cp fn args (some results)])
        (fun f hf => htest f hf), p2Core_call pass ap cp lhs args fn results hne]
    exact runPass_mem_p2 pass _ _ hmem (heq ▸ hloop)
  · exact runPass_msg

/-- Witness program for C8: `_, err := f()` at top level — the
discard position is reported. -/
def c8witDecl : FuncDecl :=
  ⟨100, none, .block 1 [.assign 2 [.identE 3 "_" none false, .identE 10 "err" (some (.varObj 1)) true]
    [.callE 4 (.otherE 5) [] (some [true, true])]]⟩

def c8witFile : File := ⟨0, "main.go", [c8witDecl]⟩

def c8wit : Pass := ⟨[c8witFile]⟩

/-- Witness for C8 at the concrete top-level discard program. -/
theorem claim8_witness :
    (⟨3, ignoredMsg⟩ : Diag) ∈ runPass c8wit
    ∧ ((∃ n, (⟨3, ignoredMsg⟩ : Diag).msg = mergeMsg n) ∨
        (⟨3, ignoredMsg⟩ : Diag).msg = ignoredMsg ∨
        ∃ n, (⟨3, ignoredMsg⟩ : Diag).msg = uncheckedMsg n) := by
  have h1 : (⟨3, ignoredMsg⟩ : Diag) ∈ runPass c8wit :=
    claim8_discard_and_messages.1 c8wit 2 4 0 3 none false
      [.identE 3 "_" none false, .identE 10 "err" (some (.varObj 1)) true] [] (.otherE 5)
      [true, true] rfl rfl
      (fun f hf => by
        have h2 : some c8witFile = some f := hf
        injection h2 with h3
        subst h3
        decide)
      (fun path hp => by
        have h2 : some (Node.stmtN (.assign 2
            [.identE 3 "_" none false, .identE 10 "err" (some (.varObj 1)) true]
            [.callE 4 (.otherE 5) [] (some [true, true])]) ::
          .stmtN c8witDecl.body :: .declN c8witDecl :: .fileN c8witFile :: []) = some path := hp
        injection h2 with h3
        subst h3
        rfl)
      (List.Mem.head _)
  exact ⟨h1, claim8_discard_and_messages.2 c8wit _ h1⟩

end Errcheckif
